import Mathlib

/-!
Shallow embedding of the Zipper repository: `src/CRC32.js` (a table-driven
CRC-32 engine) and the `Zipper` script include (a PKZIP archive builder that
serializes a list of stored files into one flat byte stream).

Modelling conventions:
* JS binary strings are modelled as `List Nat`, one entry per UTF-16 code
  unit; the strings built by this code hold one byte (a value below 256) per
  character, and string concatenation `+=` is list append.
* JS 32-bit bitwise operators act on two's-complement bit patterns.  A bit
  pattern is modelled as a `Nat` below `2 ^ 32`: `x & 0xff` is `x % 256`,
  `x & 1` is `x % 2`, `x >>> n` is `x / 2 ^ n`, `x ^ y` is `Nat.xor`, and the
  sign-propagating `x >> 8` is `sar8` below.
* Fallible, stateful platform calls (GlideRecord lookups, the attachment
  sink) are modelled by an explicit environment record and an `Except`
  result together with the list of sink invocations.
-/

namespace CRC32

/-- Polynomial used when the class is constructed without an argument
(`polynomial || 0xEDB88320`); the `Zipper` constructor builds its `CRC32`
instance with no argument, so this is the polynomial used for archives. -/
def defaultPolynomial : Nat := 0xEDB88320

/-- One round of the inner loop of `_buildCRCTable`:
`c = (c & 1) ? (polynomial ^ (c >>> 1)) : (c >>> 1)`. -/
def tableStep (polynomial c : Nat) : Nat :=
  if c % 2 = 1 then polynomial ^^^ (c / 2) else c / 2

/-- `_buildCRCTable`: entry `n` is `n` put through eight `tableStep` rounds;
the outer loop runs for `n < 32 * 8 = 256`. -/
def _buildCRCTable (polynomial : Nat) : List Nat :=
  (List.range (32 * 8)).map fun n => (tableStep polynomial)^[8] n

/-- `_strToByte`: `str.charCodeAt(i) & 0xFF` for every position of the
string. -/
def _strToByte (str : List Nat) : List Nat := str.map fun c => c % 256

/-- `evaluate` on an array-of-bytes argument.  The accumulator starts from
`0 ^ (-1)`, whose 32-bit pattern is `0xFFFFFFFF`; each byte does
`crc = (crc >>> 8) ^ crcTable[(crc ^ bytes[i]) & 0xFF]`; the result is
`(crc ^ (-1)) >>> 0`, i.e. the pattern of the final XOR read unsigned. -/
def evaluate (polynomial : Nat) (bytes : List Nat) : Nat :=
  let crcTable := _buildCRCTable polynomial
  let crc : Nat :=
    bytes.foldl (fun crc b => (crc / 256) ^^^ crcTable.getD ((crc ^^^ b) % 256) 0) 0xFFFFFFFF
  crc ^^^ 0xFFFFFFFF

/-- `evaluate` on a string argument: the string branch first converts the
argument with `_strToByte`. -/
def evaluateStr (polynomial : Nat) (str : List Nat) : Nat :=
  evaluate polynomial (_strToByte str)

end CRC32

namespace Zipper

/-- `MAX_FILENAME_LENGTH` of the `Zipper` constructor. -/
def MAX_FILENAME_LENGTH : Nat := 256

/-- `PKZIP_VERSION = "\x14\x00"` (PKZIP 2.0). -/
def PKZIP_VERSION : List Nat := [0x14, 0x00]

/-- One entry of `this.files`: `name` and `data` are JS binary strings
(`data` is the result of `_binToString`, one byte per character). -/
structure FileData where
  name : List Nat
  data : List Nat
deriving DecidableEq

/-- A JS `Date` as observed through the getters the source uses:
`getFullYear`, `getMonth` (0-based), `getDate`, `getHours`, `getMinutes`,
`getSeconds`. -/
structure JSDate where
  fullYear : Nat
  month0 : Nat
  day : Nat
  hours : Nat
  minutes : Nat
  seconds : Nat

/-- `_getZipTime`: `(hours << 11) | (minutes << 5) | floor(seconds / 2)`. -/
def _getZipTime (date : JSDate) : Nat :=
  (date.hours <<< 11) ||| (date.minutes <<< 5) ||| (date.seconds / 2)

/-- `_getZipDate`: `((year - 1980) << 9) | ((month + 1) << 5) | day`.
JS `Date` getters return values from the system clock; years before 1980
(negative DOS years) are outside the modelled range, so `Nat` subtraction
is used. -/
def _getZipDate (date : JSDate) : Nat :=
  ((date.fullYear - 1980) <<< 9) ||| ((date.month0 + 1) <<< 5) ||| date.day

/-- The `_zipDate` record `write` fills once per call from a single
`new Date()`. -/
structure ZipDate where
  date : Nat
  time : Nat

/-- Lines 90-93 of `write`: capture one `Date` and encode it once. -/
def captureZipDate (now : JSDate) : ZipDate :=
  ⟨_getZipDate now, _getZipTime now⟩

/-- `_binToString`: builds a binary string character by character with
`String.fromCharCode(array[j] & 0xff)`. -/
def _binToString (array : List Nat) : List Nat := array.map fun b => b % 256

/-- Sign-propagating `value >>= 8` of `_intToBytes`, on the two's-complement
bit pattern of a 32-bit value: shift the magnitude and replicate the sign
bit into the top eight bits. -/
def sar8 (w : Nat) : Nat := w / 256 + (if 2 ^ 31 ≤ w then 255 * 2 ^ 24 else 0)

/-- The byte-pushing loop of `_intToBytes`: each round pushes
`value & 0xff` and then shifts with `value >>= 8`. -/
def intToBytesGo (w : Nat) : Nat → List Nat
  | 0 => []
  | n + 1 => w % 256 :: intToBytesGo (sar8 w) n

/-- `_intToBytes(value, byteCount)`: the first bitwise operator converts
`value` to its 32-bit pattern (`value % 2 ^ 32`), then `byteCount` bytes
are pushed little-endian and rendered with `_binToString`.  The trailing
`while (bytes.length < byteCount)` pad loop of the source is dead code:
the main loop has already pushed exactly `byteCount` bytes. -/
def _intToBytes (value byteCount : Nat) : List Nat :=
  _binToString (intToBytesGo (value % 2 ^ 32) byteCount)

/-- The file record `add` pushes after a successful `sys_attachment`
lookup: the retrieved file name cut by `substring(0, MAX_FILENAME_LENGTH - 1)`
and the attachment bytes rendered as a binary string by `_binToString`. -/
def addFile (fileName : List Nat) (rawBytes : List Nat) : FileData :=
  { name := fileName.take (MAX_FILENAME_LENGTH - 1)
    data := _binToString rawBytes }

/-- `_header`: the local file header for one file (30 fixed bytes plus the
filename, no extra field). -/
def _header (file : FileData) (zipDate : ZipDate) : List Nat :=
  [0x50, 0x4B, 0x03, 0x04]
    ++ PKZIP_VERSION
    ++ [0x00, 0x00]
    ++ [0x00, 0x00]
    ++ _intToBytes zipDate.time 2
    ++ _intToBytes zipDate.date 2
    ++ _intToBytes (CRC32.evaluateStr CRC32.defaultPolynomial file.data) 4
    ++ _intToBytes file.data.length 4
    ++ _intToBytes file.data.length 4
    ++ _intToBytes file.name.length 2
    ++ [0x00, 0x00]
    ++ file.name

/-- `_directory`: the central directory record for one file (46 fixed bytes
plus the filename). -/
def _directory (file : FileData) (zipDate : ZipDate) (offset : Nat) : List Nat :=
  [0x50, 0x4B, 0x01, 0x02]
    ++ PKZIP_VERSION
    ++ PKZIP_VERSION
    ++ [0x00, 0x00]
    ++ [0x00, 0x00]
    ++ _intToBytes zipDate.time 2
    ++ _intToBytes zipDate.date 2
    ++ _intToBytes (CRC32.evaluateStr CRC32.defaultPolynomial file.data) 4
    ++ _intToBytes file.data.length 4
    ++ _intToBytes file.data.length 4
    ++ _intToBytes file.name.length 2
    ++ [0x00, 0x00]
    ++ [0x00, 0x00]
    ++ [0x00, 0x00]
    ++ [0x00, 0x00]
    ++ [0x00, 0x00, 0x00, 0x00]
    ++ _intToBytes offset 4
    ++ file.name

/-- JS number coercion applied to `_eoDirectory`'s `offset` parameter.
`write` passes the central-directory byte string where the declared
parameter is the numeric start offset, so `_intToBytes` receives a string:
its `value & 0xff` evaluates `ToInt32(ToNumber(s))`.  The strings reaching
it are either empty (`ToNumber("") = 0`) or start with the record signature
byte 0x50, character `P`, a non-numeric literal whose `ToNumber` is NaN and
`ToInt32(NaN) = 0`; both cases yield the pattern 0. -/
def stringToInt32 : List Nat → Nat
  | [] => 0
  | _ :: _ => 0

/-- `_eoDirectory(entries, size, offset)`: the end-of-central-directory
record (22 bytes).  The `offset` argument is typed as the byte string that
the only call site actually passes (see `stringToInt32`). -/
def _eoDirectory (entries size : Nat) (offsetStr : List Nat) : List Nat :=
  [0x50, 0x4B, 0x05, 0x06]
    ++ [0x00, 0x00]
    ++ [0x00, 0x00]
    ++ _intToBytes entries 2
    ++ _intToBytes entries 2
    ++ _intToBytes size 4
    ++ _intToBytes (stringToInt32 offsetStr) 4
    ++ [0x00, 0x00]

/-- Lines 110-120 of `write`: the per-file loop.  State is the accumulated
archive string `data`, the accumulated central directory string `directory`
and the cursor `offset`; each round appends the local header and the file
bytes to `data`, appends the directory record built with the current
`offset` to `directory`, and then runs `offset += data.length` (the whole
accumulated length, exactly as the source does). -/
def buildLoop (zipDate : ZipDate) :
    List FileData → List Nat → List Nat → Nat → List Nat × List Nat
  | [], data, directory, _ => (data, directory)
  | file :: rest, data, directory, offset =>
      let data' := data ++ _header file zipDate ++ file.data
      let directory' := directory ++ _directory file zipDate offset
      buildLoop zipDate rest data' directory' (offset + data'.length)

/-- Lines 95-124 of `write`: the serialization of the archive byte stream
(local-header+data blocks, then the central directory, then the EOCD built
by `_eoDirectory(this.files.length, directory.length, directory)`). -/
def serializeArchive (files : List FileData) (zipDate : ZipDate) : List Nat :=
  let s := buildLoop zipDate files [] [] 0
  s.1 ++ s.2 ++ _eoDirectory files.length s.2.length s.2

/-- Outcomes of the platform checks `write` performs, one flag per
condition the source tests (`gs.nil(table)`, `gs.tableExists`,
`gs.nil(record)`, `GlideStringUtil.isEligibleSysID`, `gs.nil(filename)`,
and whether `target.get(record)` finds the row). -/
structure WriteEnv where
  tableNil : Bool
  tableExists : Bool
  recordNil : Bool
  recordEligibleSysID : Bool
  filenameNil : Bool
  targetExists : Bool

/-- The errors `write` can throw. -/
inductive ZipError where
  | invalidTable
  | invalidRecord
  | invalidFilename
  | targetNotFound
  | unsupportedPlatform
deriving DecidableEq

/-- SysID of a created attachment record (never actually produced). -/
abbrev SysID := List Nat

/-- `write(table, record, filename)`: parameter validation, timestamp
capture, serialization, target lookup, and then the unconditional
`throw new Error("Unsupported Platform: ...")` — the call
`attachment.write(target, filename, this.MIME_TYPE, data)` is commented
out in the source.  The second component records every payload handed to
the attachment sink (always none). -/
def write (env : WriteEnv) (files : List FileData) (now : JSDate) :
    Except ZipError SysID × List (List Nat) :=
  if env.tableNil || !env.tableExists then (.error .invalidTable, [])
  else if env.recordNil || !env.recordEligibleSysID then (.error .invalidRecord, [])
  else if env.filenameNil then (.error .invalidFilename, [])
  else
    let zipDate := captureZipDate now
    let _data := serializeArchive files zipDate
    if !env.targetExists then (.error .targetNotFound, [])
    else (.error .unsupportedPlatform, [])

/-- Length of one local-header+data block: 30 fixed header bytes, the
filename, and the file bytes. -/
def blockLength (file : FileData) : Nat := 30 + file.name.length + file.data.length

/-- Derived bookkeeping (not a source function): the sequence of `offset`
values the loop of `write` hands to `_directory`, starting from an
accumulated data length `dataLen` and cursor `offset`.  Each round the
source runs `offset += data.length` on the whole accumulated string, so
the cursor grows by `dataLen + blockLength file`, not by the block length
alone. -/
def recordedOffsetsAux : List FileData → Nat → Nat → List Nat
  | [], _, _ => []
  | file :: rest, dataLen, offset =>
      offset :: recordedOffsetsAux rest (dataLen + blockLength file)
        (offset + (dataLen + blockLength file))

/-- The central-directory offsets recorded by one `write` call. -/
def recordedOffsets (files : List FileData) : List Nat := recordedOffsetsAux files 0 0

/-- The local-header+data section of the stream built by `write`'s loop. -/
def localSection (files : List FileData) (zipDate : ZipDate) : List Nat :=
  (files.map fun f => _header f zipDate ++ f.data).flatten

/-- The central directory records built by one `write` call, each with the
offset the loop actually recorded for it. -/
def dirRecords (files : List FileData) (zipDate : ZipDate) : List (List Nat) :=
  (files.zip (recordedOffsets files)).map fun p => _directory p.1 zipDate p.2

lemma _binToString_length (array : List Nat) : (_binToString array).length = array.length := by
  simp [_binToString]

lemma intToBytesGo_length (n : Nat) : ∀ w, (intToBytesGo w n).length = n := by
  induction n with
  | zero => intro w; rfl
  | succ m ih => intro w; simp [intToBytesGo, ih]

lemma _intToBytes_length (value byteCount : Nat) :
    (_intToBytes value byteCount).length = byteCount := by
  simp [_intToBytes, _binToString_length, intToBytesGo_length]

lemma _header_length (file : FileData) (zipDate : ZipDate) :
    (_header file zipDate).length = 30 + file.name.length := by
  simp [_header, PKZIP_VERSION, _intToBytes_length]
  omega

lemma _directory_length (file : FileData) (zipDate : ZipDate) (offset : Nat) :
    (_directory file zipDate offset).length = 46 + file.name.length := by
  simp [_directory, PKZIP_VERSION, _intToBytes_length]
  omega

lemma _eoDirectory_length (entries size : Nat) (offsetStr : List Nat) :
    (_eoDirectory entries size offsetStr).length = 22 := by
  simp [_eoDirectory, _intToBytes_length]

lemma extract_middle {a b c : List Nat} {n k : Nat}
    (ha : a.length = n) (hb : b.length = k) :
    ((a ++ (b ++ c)).drop n).take k = b := by
  rw [List.drop_left' ha, List.take_left' hb]

lemma extract_prefix {a b : List Nat} {n k : Nat} (h : n + k ≤ a.length) :
    ((a ++ b).drop n).take k = (a.drop n).take k := by
  rw [List.drop_append_of_le_length (by omega),
    List.take_append_of_le_length (by simp; omega)]

lemma header_timedate (file : FileData) (zipDate : ZipDate) :
    ((_header file zipDate).drop 10).take 4
      = _intToBytes zipDate.time 2 ++ _intToBytes zipDate.date 2 := by
  have h : _header file zipDate
      = ([0x50, 0x4B, 0x03, 0x04] ++ PKZIP_VERSION ++ [0x00, 0x00] ++ [0x00, 0x00])
        ++ ((_intToBytes zipDate.time 2 ++ _intToBytes zipDate.date 2)
          ++ (_intToBytes (CRC32.evaluateStr CRC32.defaultPolynomial file.data) 4
            ++ _intToBytes file.data.length 4
            ++ _intToBytes file.data.length 4
            ++ _intToBytes file.name.length 2
            ++ [0x00, 0x00]
            ++ file.name)) := by
    simp only [_header, List.append_assoc]
  rw [h]
  exact extract_middle (by simp [PKZIP_VERSION]) (by simp [_intToBytes_length])

lemma header_csize (file : FileData) (zipDate : ZipDate) :
    ((_header file zipDate).drop 18).take 4 = _intToBytes file.data.length 4 := by
  have h : _header file zipDate
      = ([0x50, 0x4B, 0x03, 0x04] ++ PKZIP_VERSION ++ [0x00, 0x00] ++ [0x00, 0x00]
          ++ _intToBytes zipDate.time 2 ++ _intToBytes zipDate.date 2
          ++ _intToBytes (CRC32.evaluateStr CRC32.defaultPolynomial file.data) 4)
        ++ (_intToBytes file.data.length 4
          ++ (_intToBytes file.data.length 4
            ++ _intToBytes file.name.length 2
            ++ [0x00, 0x00]
            ++ file.name)) := by
    simp only [_header, List.append_assoc]
  rw [h]
  exact extract_middle (by simp [PKZIP_VERSION, _intToBytes_length]) (_intToBytes_length _ _)

lemma header_usize (file : FileData) (zipDate : ZipDate) :
    ((_header file zipDate).drop 22).take 4 = _intToBytes file.data.length 4 := by
  have h : _header file zipDate
      = ([0x50, 0x4B, 0x03, 0x04] ++ PKZIP_VERSION ++ [0x00, 0x00] ++ [0x00, 0x00]
          ++ _intToBytes zipDate.time 2 ++ _intToBytes zipDate.date 2
          ++ _intToBytes (CRC32.evaluateStr CRC32.defaultPolynomial file.data) 4
          ++ _intToBytes file.data.length 4)
        ++ (_intToBytes file.data.length 4
          ++ (_intToBytes file.name.length 2
            ++ [0x00, 0x00]
            ++ file.name)) := by
    simp only [_header, List.append_assoc]
  rw [h]
  exact extract_middle (by simp [PKZIP_VERSION, _intToBytes_length]) (_intToBytes_length _ _)

lemma header_namelen (file : FileData) (zipDate : ZipDate) :
    ((_header file zipDate).drop 26).take 2 = _intToBytes file.name.length 2 := by
  have h : _header file zipDate
      = ([0x50, 0x4B, 0x03, 0x04] ++ PKZIP_VERSION ++ [0x00, 0x00] ++ [0x00, 0x00]
          ++ _intToBytes zipDate.time 2 ++ _intToBytes zipDate.date 2
          ++ _intToBytes (CRC32.evaluateStr CRC32.defaultPolynomial file.data) 4
          ++ _intToBytes file.data.length 4 ++ _intToBytes file.data.length 4)
        ++ (_intToBytes file.name.length 2
          ++ ([0x00, 0x00] ++ file.name)) := by
    simp only [_header, List.append_assoc]
  rw [h]
  exact extract_middle (by simp [PKZIP_VERSION, _intToBytes_length]) (_intToBytes_length _ _)

lemma directory_timedate (file : FileData) (zipDate : ZipDate) (offset : Nat) :
    ((_directory file zipDate offset).drop 12).take 4
      = _intToBytes zipDate.time 2 ++ _intToBytes zipDate.date 2 := by
  have h : _directory file zipDate offset
      = ([0x50, 0x4B, 0x01, 0x02] ++ PKZIP_VERSION ++ PKZIP_VERSION
          ++ [0x00, 0x00] ++ [0x00, 0x00])
        ++ ((_intToBytes zipDate.time 2 ++ _intToBytes zipDate.date 2)
          ++ (_intToBytes (CRC32.evaluateStr CRC32.defaultPolynomial file.data) 4
            ++ _intToBytes file.data.length 4
            ++ _intToBytes file.data.length 4
            ++ _intToBytes file.name.length 2
            ++ [0x00, 0x00] ++ [0x00, 0x00] ++ [0x00, 0x00] ++ [0x00, 0x00]
            ++ [0x00, 0x00, 0x00, 0x00]
            ++ _intToBytes offset 4
            ++ file.name)) := by
    simp only [_directory, List.append_assoc]
  rw [h]
  exact extract_middle (by simp [PKZIP_VERSION]) (by simp [_intToBytes_length])

lemma directory_namelen (file : FileData) (zipDate : ZipDate) (offset : Nat) :
    ((_directory file zipDate offset).drop 28).take 2 = _intToBytes file.name.length 2 := by
  have h : _directory file zipDate offset
      = ([0x50, 0x4B, 0x01, 0x02] ++ PKZIP_VERSION ++ PKZIP_VERSION
          ++ [0x00, 0x00] ++ [0x00, 0x00]
          ++ _intToBytes zipDate.time 2 ++ _intToBytes zipDate.date 2
          ++ _intToBytes (CRC32.evaluateStr CRC32.defaultPolynomial file.data) 4
          ++ _intToBytes file.data.length 4 ++ _intToBytes file.data.length 4)
        ++ (_intToBytes file.name.length 2
          ++ ([0x00, 0x00] ++ [0x00, 0x00] ++ [0x00, 0x00] ++ [0x00, 0x00]
            ++ [0x00, 0x00, 0x00, 0x00]
            ++ _intToBytes offset 4
            ++ file.name)) := by
    simp only [_directory, List.append_assoc]
  rw [h]
  exact extract_middle (by simp [PKZIP_VERSION, _intToBytes_length]) (_intToBytes_length _ _)

lemma buildLoop_eq (zipDate : ZipDate) (files : List FileData) :
    ∀ (data directory : List Nat) (offset : Nat),
      buildLoop zipDate files data directory offset
        = (data ++ localSection files zipDate,
           directory
             ++ ((files.zip (recordedOffsetsAux files data.length offset)).map
               fun p => _directory p.1 zipDate p.2).flatten) := by
  induction files with
  | nil =>
      intro data directory offset
      simp [buildLoop, localSection, recordedOffsetsAux]
  | cons f rest ih =>
      intro data directory offset
      have hlen : (data ++ _header f zipDate ++ f.data).length
          = data.length + blockLength f := by
        simp [_header_length, blockLength]
      simp only [buildLoop]
      rw [ih, hlen]
      simp [localSection, recordedOffsetsAux, List.append_assoc]

lemma serializeArchive_eq (files : List FileData) (zipDate : ZipDate) :
    serializeArchive files zipDate
      = localSection files zipDate ++ (dirRecords files zipDate).flatten
        ++ _eoDirectory files.length (dirRecords files zipDate).flatten.length
            (dirRecords files zipDate).flatten := by
  have h := buildLoop_eq zipDate files [] [] 0
  simp only [serializeArchive, h]
  simp [dirRecords, recordedOffsets]

end Zipper

open Zipper

/-- A stored file with empty name and empty data (the smallest entry; its
local-header+data block is exactly 30 bytes). -/
def emptyFile : FileData := ⟨[], []⟩

/-- A fixed timestamp capture whose encoded DOS date and time are both 0. -/
def zipDate0 : ZipDate := ⟨0, 0⟩

/-- A fixed capture date for witnesses. -/
def now0 : JSDate := ⟨2024, 0, 1, 0, 0, 0⟩

/-- An entry whose data length, 2^32 bytes, exceeds the unsigned 32-bit
field width by one. -/
def oversizedFile : FileData := ⟨[], List.replicate (2 ^ 32) 0⟩

/-- An environment in which every platform check of `write` passes. -/
def goodEnv : WriteEnv := ⟨false, true, false, true, false, true⟩

/-- C1 fails on the code: serializing three entries (each with empty name
and empty data, so every local-header+data block is 30 bytes) records the
central-directory offsets 0, 30, 90 while the three local header
signatures sit at bytes 0, 30, 60 of the stream — the loop runs
`offset += data.length` on the whole accumulated stream instead of the
single block.  The third directory record (stream bytes 182-227, offset
field at 224) holds 90, byte 60 holds a local header signature, and byte
90 does not. -/
theorem claim_C1_offset_bug :
    recordedOffsets [emptyFile, emptyFile, emptyFile] = [0, 30, 90]
    ∧ ((serializeArchive [emptyFile, emptyFile, emptyFile] zipDate0).drop 224).take 4
        = [90, 0, 0, 0]
    ∧ ((serializeArchive [emptyFile, emptyFile, emptyFile] zipDate0).drop 60).take 4
        = [0x50, 0x4B, 0x03, 0x04]
    ∧ ((serializeArchive [emptyFile, emptyFile, emptyFile] zipDate0).drop 90).take 4
        ≠ [0x50, 0x4B, 0x03, 0x04] := by
  decide

/-- C2 fails on the code: `write` passes the central-directory byte string
where `_eoDirectory` declares the numeric start offset, so the EOCD offset
field always encodes 0.  For one empty-name empty-data entry the stream is
98 bytes, the central directory really starts at byte 30, the recorded
directory size is 46, and the recorded offset is 0, so recorded offset +
recorded size = 46 while the total length minus the 22-byte EOCD is 76. -/
theorem claim_C2_eocd_offset_bug :
    (serializeArchive [emptyFile] zipDate0).length = 98
    ∧ ((serializeArchive [emptyFile] zipDate0).drop 30).take 4 = [0x50, 0x4B, 0x01, 0x02]
    ∧ ((serializeArchive [emptyFile] zipDate0).drop 88).take 4 = [46, 0, 0, 0]
    ∧ ((serializeArchive [emptyFile] zipDate0).drop 92).take 4 = [0, 0, 0, 0]
    ∧ 0 + 46 ≠ (serializeArchive [emptyFile] zipDate0).length - 22 := by
  decide

/-- C3 counterexample: an entry of 2^32 zero bytes, one past the 32-bit
field width, is serialized without any error into a complete archive whose
compressed-size field (stream bytes 18-21) wraps to `[0, 0, 0, 0]`. -/
theorem claim_C3_counterexample :
    2 ^ 32 - 1 < oversizedFile.data.length
    ∧ ((serializeArchive [oversizedFile] zipDate0).drop 18).take 4 = [0, 0, 0, 0]
    ∧ (serializeArchive [oversizedFile] zipDate0).length = 2 ^ 32 + 98 := by
  have hdata : oversizedFile.data = List.replicate (2 ^ 32) 0 := rfl
  have hlen : oversizedFile.data.length = 2 ^ 32 := by
    rw [hdata, List.length_replicate]
  have hname : oversizedFile.name.length = 0 := rfl
  refine ⟨by rw [hlen]; omega, ?_, ?_⟩
  · have h1 : serializeArchive [oversizedFile] zipDate0
        = _header oversizedFile zipDate0
          ++ (oversizedFile.data ++ ((dirRecords [oversizedFile] zipDate0).flatten
            ++ _eoDirectory 1 (dirRecords [oversizedFile] zipDate0).flatten.length
                (dirRecords [oversizedFile] zipDate0).flatten)) := by
      rw [serializeArchive_eq]
      simp [localSection]
    rw [h1, extract_prefix (by rw [_header_length, hname]; omega), header_csize, hlen]
    decide
  · rw [serializeArchive_eq]
    simp only [localSection, dirRecords, recordedOffsets, recordedOffsetsAux,
      List.map_cons, List.map_nil, List.zip_cons_cons, List.zip_nil_right,
      List.flatten_cons, List.flatten_nil, List.append_nil, List.length_append,
      List.length_cons, List.length_nil, _header_length, _directory_length,
      _eoDirectory_length, hlen, hname]
    omega

/-- C3 amended: serialization performs no overflow check and signals no
error for an oversized entry; the local header's compressed- and
uncompressed-size fields always encode `data.length` through
`_intToBytes _ 4`, which depends only on the length modulo 2^32 (the
value is wrapped, never widened). -/
theorem claim_C3_amended (file : FileData) (zipDate : ZipDate) :
    ((_header file zipDate).drop 18).take 4 = _intToBytes file.data.length 4
    ∧ ((_header file zipDate).drop 22).take 4 = _intToBytes file.data.length 4
    ∧ _intToBytes file.data.length 4 = _intToBytes (file.data.length % 2 ^ 32) 4 := by
  refine ⟨header_csize file zipDate, header_usize file zipDate, ?_⟩
  have h : file.data.length % 2 ^ 32 % 2 ^ 32 = file.data.length % 2 ^ 32 := by omega
  simp [_intToBytes, h]

/-- C4: with the default polynomial 0xEDB88320, `evaluate` applied to the
single-byte input `[0x00]` returns exactly 0xD202EF8D. -/
theorem claim_C4_crc_zero_byte :
    CRC32.evaluate CRC32.defaultPolynomial [0x00] = 0xD202EF8D := by
  decide

/-- C5: `evaluate` applied to the empty byte sequence returns exactly
0x00000000. -/
theorem claim_C5_crc_empty :
    CRC32.evaluate CRC32.defaultPolynomial [] = 0x00000000 := by
  decide

/-- C6: one serialization call captures a single timestamp
(`captureZipDate now`); the emitted stream is exactly the local blocks,
the directory records and the EOCD built from that one capture, and the
identical DOS-encoded time and date bytes appear (at offset 10) in every
entry's local header and (at offset 12) in every central directory record
produced by that call. -/
theorem claim_C6_single_timestamp (files : List FileData) (now : JSDate) :
    serializeArchive files (captureZipDate now)
      = localSection files (captureZipDate now)
        ++ (dirRecords files (captureZipDate now)).flatten
        ++ _eoDirectory files.length
            (dirRecords files (captureZipDate now)).flatten.length
            (dirRecords files (captureZipDate now)).flatten
    ∧ (∀ f ∈ files,
        ((_header f (captureZipDate now)).drop 10).take 4
          = _intToBytes (_getZipTime now) 2 ++ _intToBytes (_getZipDate now) 2)
    ∧ (∀ r ∈ dirRecords files (captureZipDate now),
        (r.drop 12).take 4
          = _intToBytes (_getZipTime now) 2 ++ _intToBytes (_getZipDate now) 2) := by
  refine ⟨serializeArchive_eq files _, ?_, ?_⟩
  · intro f _
    exact header_timedate f (captureZipDate now)
  · intro r hr
    obtain ⟨p, _, rfl⟩ := List.mem_map.mp hr
    exact directory_timedate p.1 (captureZipDate now) p.2

/-- Witness for C6 at one concrete entry and capture date. -/
theorem claim_C6_single_timestamp_witness :
    ((_header emptyFile (captureZipDate now0)).drop 10).take 4
      = _intToBytes (_getZipTime now0) 2 ++ _intToBytes (_getZipDate now0) 2 :=
  (claim_C6_single_timestamp [emptyFile] now0).2.1 emptyFile (by simp)

/-- C7: an entry added with a name longer than the stored maximum of 255
is stored with the name cut by `substring(0, 255)`, and the
filename-length field of both the local header (bytes 26-27) and the
directory record (bytes 28-29) encodes the truncated length 255, not the
original length. -/
theorem claim_C7_name_truncated (fileName rawBytes : List Nat) (zipDate : ZipDate)
    (offset : Nat) (h : 255 < fileName.length) :
    (addFile fileName rawBytes).name = fileName.take 255
    ∧ (addFile fileName rawBytes).name.length = 255
    ∧ ((_header (addFile fileName rawBytes) zipDate).drop 26).take 2 = [255, 0]
    ∧ ((_directory (addFile fileName rawBytes) zipDate offset).drop 28).take 2 = [255, 0] := by
  have hname : (addFile fileName rawBytes).name.length = 255 := by
    simp [addFile, MAX_FILENAME_LENGTH]
    omega
  refine ⟨rfl, hname, ?_, ?_⟩
  · rw [header_namelen, hname]
    decide
  · rw [directory_namelen, hname]
    decide

/-- Witness for C7 at a 300-character name. -/
theorem claim_C7_name_truncated_witness :
    (addFile (List.replicate 300 97) []).name = (List.replicate 300 97).take 255
    ∧ (addFile (List.replicate 300 97) []).name.length = 255
    ∧ ((_header (addFile (List.replicate 300 97) []) zipDate0).drop 26).take 2 = [255, 0]
    ∧ ((_directory (addFile (List.replicate 300 97) []) zipDate0 0).drop 28).take 2
        = [255, 0] :=
  claim_C7_name_truncated (List.replicate 300 97) [] zipDate0 0 (by norm_num)

/-- C8: serializing with zero entries returns exactly the 22-byte EOCD
record: the signature, then both disk numbers, both entry counts, the
central-directory size, the central-directory offset and the comment
length all encoded as zero. -/
theorem claim_C8_empty_archive (zipDate : ZipDate) :
    serializeArchive [] zipDate
      = [0x50, 0x4B, 0x05, 0x06, 0, 0, 0, 0, 0, 0, 0, 0,
         0, 0, 0, 0, 0, 0, 0, 0, 0, 0] := by
  show _eoDirectory 0 0 [] = _
  rfl

/-- C9: whenever the parameters pass validation and the target record
exists, `write` throws the unsupported-platform error after building the
archive: it never hands the archive bytes to the attachment sink (the
sink-call list stays empty) and never returns an attachment SysID. -/
theorem claim_C9_write_unsupported (env : WriteEnv) (files : List FileData) (now : JSDate)
    (h1 : env.tableNil = false) (h2 : env.tableExists = true)
    (h3 : env.recordNil = false) (h4 : env.recordEligibleSysID = true)
    (h5 : env.filenameNil = false) (h6 : env.targetExists = true) :
    write env files now = (Except.error ZipError.unsupportedPlatform, []) := by
  simp [write, h1, h2, h3, h4, h5, h6]

/-- Witness for C9 in the all-checks-pass environment. -/
theorem claim_C9_write_unsupported_witness :
    write goodEnv [emptyFile] now0 = (Except.error ZipError.unsupportedPlatform, []) :=
  claim_C9_write_unsupported goodEnv [emptyFile] now0 rfl rfl rfl rfl rfl rfl

/-- C10: on arrays whose entries are bytes (below 256), `_binToString`
followed by `_strToByte` is the identity. -/
theorem claim_C10_roundtrip (array : List Nat) (h : ∀ b ∈ array, b < 256) :
    CRC32._strToByte (Zipper._binToString array) = array := by
  induction array with
  | nil => rfl
  | cons x xs ih =>
      have hx : x < 256 := h x (by simp)
      have hxs : ∀ b ∈ xs, b < 256 := fun b hb => h b (by simp [hb])
      have ih' := ih hxs
      simp only [Zipper._binToString, CRC32._strToByte, List.map_cons] at ih' ⊢
      rw [show x % 256 % 256 = x by omega, ih']

/-- Witness for C10 at a concrete byte array. -/
theorem claim_C10_roundtrip_witness :
    CRC32._strToByte (Zipper._binToString [0, 127, 255]) = [0, 127, 255] :=
  claim_C10_roundtrip [0, 127, 255] (by decide)
